import Mathlib

/-!
Shallow embedding of `src/scripts/wallace_tree.py` (a Wallace-tree multiplier
generator for Booth-encoded binary numbers) and verification of the frozen
claims about it.

Modelling conventions:
* Python floats carry only dyadic values here (multiples of 0.5), so latencies
  are embedded as rationals `ℚ`.
* Python exceptions are embedded with `Except PyErr`; `PyErr` distinguishes
  `ValueError` (with the formatted message), `IndexError`, `AssertionError`
  and `TypeError`.
* The back-reference `Signal.host` from a signal to its producing compressor
  is embedded as the producer's unique name (`none` for primary signals),
  avoiding the cyclic structure of the Python objects.
* `list.clear()` / `list.pop()` mutations inside `column_add` only affect the
  caller's column lists, which the only caller (`tree_reduce`) never reads
  afterwards; the embedding is therefore value-passing and returns the tuple
  the Python method returns, together with the compressors appended to the
  registry.
-/

/-- Gate-delay constant `BOOTH_DELAY = 4.0` from the source. -/
def BOOTH_DELAY : ℚ := 4

/-- Gate-delay constant `AND_DELAY = 1.0` from the source. -/
def AND_DELAY : ℚ := 1

/-- Gate-delay constant `OR_DELAY = 1.0` from the source. -/
def OR_DELAY : ℚ := 1

/-- Gate-delay constant `XOR_DELAY = 1.5` from the source. -/
def XOR_DELAY : ℚ := 3 / 2

/-- Embedding of class `Signal`: name, accumulated latency, and the producing
compressor (`host`), kept as the producer's unique name. The `loader` field of
the source is never written or read anywhere in the core and is omitted. -/
structure Signal where
  name : String
  latency : ℚ
  host : Option String
deriving DecidableEq

/-- The module-level constant-zero signal `TIE_LOW = Signal("1'b0", 0.0, None)`. -/
def TIE_LOW : Signal := { name := "1\x27b0", latency := 0, host := none }

/-- Python exception kinds raised by the core. -/
inductive PyErr where
  | valueError (msg : String)
  | indexError
  | assertionError
  | typeError
deriving DecidableEq

/-- Shared naming scheme of class `Compressor`:
`f"u_{module_name}_{column}_{level}_{no}"`. -/
def compressor_name (module_name : String) (column level no : ℕ) : String :=
  "u_" ++ module_name ++ "_" ++ toString column ++ "_" ++ toString level
    ++ "_" ++ toString no

/-- Embedding of class `Compressor2to1` after construction. -/
structure Compressor2to1 where
  name : String
  a : Signal
  b : Signal
  sum : Signal
  cout : Signal
deriving DecidableEq

/-- Constructor of `Compressor2to1`: `sum = max(a,b) + XOR_DELAY`,
`cout = max(a,b) + AND_DELAY`. -/
def mkCompressor2to1 (a b : Signal) (column level no : ℕ) : Compressor2to1 :=
  let nm := compressor_name "cmprs_2to1" column level no
  let max_ab := max a.latency b.latency
  { name := nm, a := a, b := b,
    sum := { name := nm ++ "_sum", latency := max_ab + XOR_DELAY, host := some nm },
    cout := { name := nm ++ "_cout", latency := max_ab + AND_DELAY, host := some nm } }

/-- Embedding of class `Compressor3to2` after construction. -/
structure Compressor3to2 where
  name : String
  a : Signal
  b : Signal
  c : Signal
  sum : Signal
  cout : Signal
deriving DecidableEq

/-- Constructor of `Compressor3to2`: `sum = max(a,b,c) + 2*XOR_DELAY`,
`cout = max(a,b,c) + AND_DELAY + OR_DELAY`. -/
def mkCompressor3to2 (a b c : Signal) (column level no : ℕ) : Compressor3to2 :=
  let nm := compressor_name "cmprs_3to2" column level no
  let max_abc := max (max a.latency b.latency) c.latency
  { name := nm, a := a, b := b, c := c,
    sum := { name := nm ++ "_sum", latency := max_abc + XOR_DELAY * 2, host := some nm },
    cout := { name := nm ++ "_cout", latency := max_abc + (AND_DELAY + OR_DELAY),
              host := some nm } }

/-- Embedding of class `Compressor4to2` after construction. -/
structure Compressor4to2 where
  name : String
  a : Signal
  b : Signal
  c : Signal
  d : Signal
  cin : Signal
  sum : Signal
  cout_a : Signal
  cout_b : Signal
deriving DecidableEq

/-- Constructor of `Compressor4to2`, following the source line by line:
`max_abc = max(a,b,c)`, `max_all = max(max_abc, d, cin)`,
`abcd_xor = max(max_abc, d) + 2*XOR`, `cin_and = cin + AND`,
`sum = max_all + 3*XOR`, `cout_a = max(abcd_xor, cin_and) + OR`,
`cout_b = max_abc + AND + OR`. -/
def mkCompressor4to2 (a b c d cin : Signal) (column level no : ℕ) : Compressor4to2 :=
  let nm := compressor_name "cmprs_4to2" column level no
  let max_abc := max (max a.latency b.latency) c.latency
  let max_all := max (max max_abc d.latency) cin.latency
  let abcd_xor := max max_abc d.latency + XOR_DELAY * 2
  let cin_and := cin.latency + AND_DELAY
  { name := nm, a := a, b := b, c := c, d := d, cin := cin,
    sum := { name := nm ++ "_sum", latency := max_all + XOR_DELAY * 3, host := some nm },
    cout_a := { name := nm ++ "_cout_a", latency := max abcd_xor cin_and + OR_DELAY,
                host := some nm },
    cout_b := { name := nm ++ "_cout_b", latency := max_abc + (AND_DELAY + OR_DELAY),
                host := some nm } }

/-- One entry of the `self.compressors` registry (a heterogeneous Python list). -/
inductive CompEntry where
  | c2 (c : Compressor2to1)
  | c3 (c : Compressor3to2)
  | c4 (c : Compressor4to2)
deriving DecidableEq

/-- Body of `WallaceTree.get_pp_width` after its range check: row 0 gets
`width + 4`, the last row (`pp_num - 1`) gets `width + 3`, every other row
gets `width + 5`. -/
def pp_width_core (width pp_num row : ℕ) : ℕ :=
  if row = 0 then width + 4
  else if row = pp_num - 1 then width + 3
  else width + 5

/-- Embedding of `WallaceTree.get_pp_width` including its range check
(`row < 0 or row >= self.pp_num` raises `ValueError`). -/
def get_pp_width (width pp_num : ℕ) (row : ℤ) : Except PyErr ℕ :=
  if row < 0 ∨ (pp_num : ℤ) ≤ row then
    .error (.valueError ("Row number(" ++ toString row ++ ") out of range:["
      ++ toString (pp_num - 1) ++ ":0]."))
  else
    .ok (pp_width_core width pp_num row.toNat)

/-- Row start position used inside `get_wallace_map`: `0` if `i <= 1`,
otherwise `i * 2 - 2`. -/
def start_pos (i : ℕ) : ℕ := if i ≤ 1 then 0 else i * 2 - 2

/-- Embedding of `WallaceTree.get_wallace_map`: a `pp_num x (result_width + 2)`
matrix whose entry `(i, j)` is `1` iff `start_pos i ≤ j < start_pos i + width i`.
All calls `self.get_pp_width(i)` have `i` in range, so the unchecked core is
used. -/
def get_wallace_map (width : ℕ) : List (List ℕ) :=
  let result_width := 2 * width
  let pp_num := width / 2 + 1
  let list_len := result_width + 2
  (List.range pp_num).map (fun i =>
    (List.range list_len).map (fun j =>
      if j < start_pos i ∨ start_pos i + pp_width_core width pp_num i ≤ j then 0 else 1))

/-- Embedding of `WallaceTree.gen_column`: one primary `Signal` per row whose
layout entry at `column` is `1`, named `pp_ext[i][column]`, latency
`BOOTH_DELAY`, no producer. -/
def gen_column (pp_num : ℕ) (tree_map : List (List ℕ)) (column : ℕ) : List Signal :=
  ((List.range pp_num).filter (fun i => (tree_map.getD i []).getD column 0 == 1)).map
    (fun i =>
      { name := "pp_ext[" ++ toString i ++ "][" ++ toString column ++ "]",
        latency := BOOTH_DELAY, host := none })

/-- Embedding of the `WallaceTree` engine state after `__init__`.
`logic_depth` is validated by the constructor but never stored by the source,
so it is not a field. -/
structure WallaceTree where
  width : ℕ
  result_width : ℕ
  pp_num : ℕ
  tree_map : List (List ℕ)
  columns : List (List Signal)
  compressors : List CompEntry
deriving DecidableEq

/-- Embedding of `WallaceTree.__init__` (the `pp_name` parameter is accepted by
the source but never used: column signals are always named `pp_ext[...]`). -/
def WallaceTree.init (width logic_depth : ℤ) : Except PyErr WallaceTree :=
  if width < 4 then
    .error (.valueError "Width of the Wallace Tree must be at least 4.")
  else if logic_depth < 3 then
    .error (.valueError "depth of the logic must be at least 3.")
  else
    let w := width.toNat
    let result_width := 2 * w
    let pp_num := w / 2 + 1
    let tree_map := get_wallace_map w
    let columns := (List.range result_width).map (fun i => gen_column pp_num tree_map i)
    .ok { width := w, result_width := result_width, pp_num := pp_num,
          tree_map := tree_map, columns := columns, compressors := [] }

/-- Embedding of `WallaceTree.get_pp_width` as a method. -/
def WallaceTree.pp_width_of (t : WallaceTree) (row : ℤ) : Except PyErr ℕ :=
  get_pp_width t.width t.pp_num row

/-- Embedding of `WallaceTree.get_column_num`: the source's bound check is
`column < 0 or column > self.result_width`, so `column = result_width` passes
the check and the subsequent `self.columns[column]` raises `IndexError`
(`len(self.columns) = result_width`). -/
def WallaceTree.get_column_num (t : WallaceTree) (column : ℤ) : Except PyErr ℕ :=
  if column < 0 ∨ (t.result_width : ℤ) < column then
    .error (.valueError ("Column number(" ++ toString column ++ ") out of range:["
      ++ toString (t.result_width - 1) ++ ":0]."))
  else
    match t.columns.get? column.toNat with
    | some l => .ok l.length
    | none => .error .indexError

/-- Embedding of `WallaceTree.generate_tree`: the body is `pass`, so it
returns Python `None` (modelled as `Option.none`) and the state is unchanged. -/
def WallaceTree.generate_tree (t : WallaceTree) : Option Unit × WallaceTree :=
  (none, t)

/-- Embedding of `WallaceTree.column_add`, recursing on the reversed column
list (most recently inserted signal first), which makes the source's
`col_list[-1] ... col_list[-5]` accesses and the recursion on `col_list[:-5]`
structural. Cases, for the original list `[x, y, z, u, v, ...]`:
* `n = 0`: `assert len(col_list) > 0` fails.
* `n = 1`: the source runs `col_list.clear()` and then returns
  `([], [col_list[0]])`, which indexes the now-empty list: `IndexError`.
* `n = 2/3`: one 2:1 / 3:2 compressor on the signals in list order.
* `n = 4`: one 4:2 compressor with `TIE_LOW` as `cin`.
* `n = 5`: one 4:2 compressor, the last signal as `cin`.
* `n > 5`: one 4:2 compressor on the five most recently inserted signals
  (`a = col_list[-1], ..., cin = col_list[-5]`), then recursion on the
  remaining signals with `no + 1`, this step's outputs concatenated ahead. -/
def column_add_rev : List Signal → ℕ → ℕ → ℕ →
    Except PyErr (List Signal × List Signal × List CompEntry)
  | [], _, _, _ => .error .assertionError
  | [_], _, _, _ => .error .indexError
  | [y, x], column, level, no =>
    let comp := mkCompressor2to1 x y column level no
    .ok ([comp.cout], [comp.sum], [.c2 comp])
  | [z, y, x], column, level, no =>
    let comp := mkCompressor3to2 x y z column level no
    .ok ([comp.cout], [comp.sum], [.c3 comp])
  | [u, z, y, x], column, level, no =>
    let comp := mkCompressor4to2 x y z u TIE_LOW column level no
    .ok ([comp.cout_a, comp.cout_b], [comp.sum], [.c4 comp])
  | [v, u, z, y, x], column, level, no =>
    let comp := mkCompressor4to2 x y z u v column level no
    .ok ([comp.cout_a, comp.cout_b], [comp.sum], [.c4 comp])
  | a :: b :: c :: d :: e :: f :: rest, column, level, no =>
    let comp := mkCompressor4to2 a b c d e column level no
    match column_add_rev (f :: rest) column level (no + 1) with
    | .error err => .error err
    | .ok (cout_remain, sum_remain, comps) =>
      .ok ([comp.cout_a, comp.cout_b] ++ cout_remain,
           [comp.sum] ++ sum_remain,
           .c4 comp :: comps)

/-- Embedding of `WallaceTree.column_add` on a column list in insertion order:
`(carries, sums, compressors appended to the registry)`. -/
def column_add (col_list : List Signal) (column level no : ℕ) :
    Except PyErr (List Signal × List Signal × List CompEntry) :=
  column_add_rev col_list.reverse column level no

/-- The `for i, col in enumerate(columns)` loop of `WallaceTree.tree_reduce`:
each column is reduced once with `column_add(col, i, level, 0)`, compressors
accumulate in the registry, and the per-column carry and sum lists are
collected into `carry_list` / `sum_list`. -/
def reduce_columns : WallaceTree → List (List Signal) → ℕ → ℕ →
    Except PyErr (WallaceTree × List (List Signal) × List (List Signal))
  | t, [], _, _ => .ok (t, [], [])
  | t, col :: rest, level, i =>
    match column_add col i level 0 with
    | .error e => .error e
    | .ok (carry, sum_o, comps) =>
      match reduce_columns { t with compressors := t.compressors ++ comps }
          rest level (i + 1) with
      | .error e => .error e
      | .ok (t2, carry_list, sum_list) =>
        .ok (t2, carry :: carry_list, sum_o :: sum_list)

/-- Embedding of `WallaceTree.tree_reduce`. When every column already holds at
most 2 live signals the source only prints the signal names and returns.
Otherwise it reduces every column once, never writes `carry_list` / `sum_list`
back into any column, and then executes `self.tree_reduce()` — a call with
both required positional arguments missing, which raises `TypeError`. -/
def tree_reduce (t : WallaceTree) (columns : List (List Signal)) (level : ℕ) :
    Except PyErr WallaceTree :=
  match (columns.map List.length).max? with
  | none => .error (.valueError "max() arg is an empty sequence")
  | some m =>
    if m ≤ 2 then .ok t
    else
      match reduce_columns t columns level 0 with
      | .error e => .error e
      | .ok _ => .error .typeError

/-- Layout entry `(r, c)` of the Wallace map for width `w` (0 outside). -/
def layout_entry (w r c : ℕ) : ℕ := ((get_wallace_map w).getD r []).getD c 0

/-- Number of 1-entries in row `r` of the layout for width `w`. -/
def row_ones (w r : ℕ) : ℕ := ((get_wallace_map w).getD r []).count 1

/-- Total number of set bits across the whole layout matrix for width `w`. -/
def total_set_bits (w : ℕ) : ℕ :=
  ((get_wallace_map w).map (fun row => row.count 1)).sum

/-- Number of 1-entries of row `r` among columns `0 .. n-1`. -/
def row_ones_upto (w r n : ℕ) : ℕ :=
  ((List.range n).filter (fun c => layout_entry w r c == 1)).length

/-- Total set bits of the layout restricted to columns `0 .. n-1`. -/
def set_bits_upto (w n : ℕ) : ℕ :=
  ((List.range (w / 2 + 1)).map (fun r => row_ones_upto w r n)).sum

/-- Total number of primary signals created across all columns
(`for i in range(0, result_width): gen_column(i)` in `__init__`). -/
def primary_total (w : ℕ) : ℕ :=
  ((List.range (2 * w)).map
    (fun c => (gen_column (w / 2 + 1) (get_wallace_map w) c).length)).sum

/-- Latency monotonicity, as it actually holds of the compressors: every
output of the 2:1 and 3:2 compressors, and the `sum` and `cout_a` outputs of
the 4:2 compressor, exceed the maximum latency of all their inputs by at
least `AND_DELAY = 1`; the 4:2 `cout_b` output (majority of `a`, `b`, `c`)
exceeds the maximum latency of `a`, `b`, `c` only. -/
def c4_mono_spec (a b c d cin : Signal) (column level no : ℕ) : Prop :=
  max a.latency b.latency + 1 ≤ (mkCompressor2to1 a b column level no).sum.latency ∧
  max a.latency b.latency + 1 ≤ (mkCompressor2to1 a b column level no).cout.latency ∧
  max (max a.latency b.latency) c.latency + 1
    ≤ (mkCompressor3to2 a b c column level no).sum.latency ∧
  max (max a.latency b.latency) c.latency + 1
    ≤ (mkCompressor3to2 a b c column level no).cout.latency ∧
  max (max (max (max a.latency b.latency) c.latency) d.latency) cin.latency + 1
    ≤ (mkCompressor4to2 a b c d cin column level no).sum.latency ∧
  max (max (max (max a.latency b.latency) c.latency) d.latency) cin.latency + 1
    ≤ (mkCompressor4to2 a b c d cin column level no).cout_a.latency ∧
  max (max a.latency b.latency) c.latency + 1
    ≤ (mkCompressor4to2 a b c d cin column level no).cout_b.latency

/-- Exact delay formulas of the three compressor kinds, plus the behaviour of
the column reduction step on two equal-latency signals. -/
def c6_delay_spec (a b c d cin : Signal) (column level no : ℕ)
    (L : ℚ) (s₁ s₂ : Signal) : Prop :=
  (mkCompressor2to1 a b column level no).sum.latency
    = max a.latency b.latency + 3 / 2 ∧
  (mkCompressor2to1 a b column level no).cout.latency
    = max a.latency b.latency + 1 ∧
  (mkCompressor3to2 a b c column level no).sum.latency
    = max (max a.latency b.latency) c.latency + 3 ∧
  (mkCompressor3to2 a b c column level no).cout.latency
    = max (max a.latency b.latency) c.latency + 2 ∧
  (mkCompressor4to2 a b c d cin column level no).sum.latency
    = max (max (max (max a.latency b.latency) c.latency) d.latency) cin.latency
      + 9 / 2 ∧
  (mkCompressor4to2 a b c d cin column level no).cout_a.latency
    = max (max (max (max a.latency b.latency) c.latency) d.latency + 3)
        (cin.latency + 1) + 1 ∧
  (mkCompressor4to2 a b c d cin column level no).cout_b.latency
    = max (max a.latency b.latency) c.latency + 2 ∧
  (∃ cs ss comps, column_add [s₁, s₂] column level no = .ok (cs, ss, comps) ∧
    cs.map Signal.latency = [L + 1] ∧ ss.map Signal.latency = [L + 3 / 2])

/-- Layout properties of claim C5 for a given width `w`: matrix dimensions,
per-row populated widths, row start columns, the entry membership condition,
and the `width = 8` example. -/
def c5_layout_spec (w : ℕ) : Prop :=
  (get_wallace_map w).length = w / 2 + 1 ∧
  (∀ r, r < w / 2 + 1 → ((get_wallace_map w).getD r []).length = 2 * w + 2) ∧
  get_pp_width w (w / 2 + 1) 0 = .ok (w + 4) ∧
  get_pp_width w (w / 2 + 1) ((w / 2 + 1 : ℕ) - 1 : ℕ) = .ok (w + 3) ∧
  (∀ r : ℕ, 0 < r → r < w / 2 → get_pp_width w (w / 2 + 1) r = .ok (w + 5)) ∧
  start_pos 0 = 0 ∧ start_pos 1 = 0 ∧
  (∀ r, 2 ≤ r → start_pos r = 2 * r - 2) ∧
  (∀ r c, r < w / 2 + 1 → c < 2 * w + 2 →
    (layout_entry w r c = 1 ↔
      start_pos r ≤ c ∧ c < start_pos r + pp_width_core w (w / 2 + 1) r)) ∧
  (w = 8 → w / 2 + 1 = 5 ∧ 2 * w = 16 ∧
    (List.range 5).map (fun r => pp_width_core 8 5 r) = [12, 13, 13, 13, 11])

/-- Layout/primary-signal properties of claim C7 as they actually hold: every
row's count of 1-entries equals the per-row width formula, the number of
primary signals equals the number of set bits in columns `0 .. result_width-1`
(not in the whole matrix, which has two extra columns), the tree built by the
constructor instantiates exactly those signals, and every primary signal has
latency `BOOTH_DELAY` and no producer. -/
def c7_amended_spec (w : ℕ) : Prop :=
  (∀ r, r < w / 2 + 1 → row_ones w r = pp_width_core w (w / 2 + 1) r) ∧
  primary_total w = set_bits_upto w (2 * w) ∧
  total_set_bits w = set_bits_upto w (2 * w + 2) ∧
  (∀ d : ℤ, 3 ≤ d → ∀ t, WallaceTree.init (w : ℤ) d = .ok t →
    (t.columns.map List.length).sum = primary_total w) ∧
  (∀ c s, s ∈ gen_column (w / 2 + 1) (get_wallace_map w) c →
    s.latency = BOOTH_DELAY ∧ s.host = none)

/-- Claim C1 (code divergence): on the tree built for width 8, one call of
`tree_reduce` on the freshly constructed columns does not iterate level by
level until every column holds at most 2 live signals — after reducing each
column once (and discarding the resulting carry and sum lists, so carries
never reach column `c+1`), the source executes `self.tree_reduce()` with both
required positional arguments missing, raising `TypeError`; the level counter
is never incremented and `logic_depth` is never consulted. -/
theorem c1_tree_reduce_code_defect :
    (WallaceTree.init 8 20).map (fun t => tree_reduce t t.columns 0)
      = .ok (.error .typeError) := by
  rfl

/-- Claim C2 (code divergence): `column_add` on a single-signal list does not
return `([], [the signal])` — the source clears the list before building the
return value, so `col_list[0]` raises `IndexError` for every input signal. -/
theorem c2_singleton_column_add_index_error :
    ∀ (s : Signal) (column level no : ℕ),
      column_add [s] column level no = .error .indexError := by
  intro s column level no
  rfl

/-- Claim C3 (code divergence): `column_add` on six equal-latency signals does
not return 2 sums and 2 carries — it instantiates a 4:2 compressor on the five
most recently inserted signals and recurses on the remaining single signal,
whose pass-through branch clears the list before reading element 0, so the
whole call raises `IndexError`. -/
theorem c3_six_signal_column_add_index_error :
    column_add
      [{ name := "s0", latency := 4, host := none },
       { name := "s1", latency := 4, host := none },
       { name := "s2", latency := 4, host := none },
       { name := "s3", latency := 4, host := none },
       { name := "s4", latency := 4, host := none },
       { name := "s5", latency := 4, host := none }] 0 0 0
      = .error .indexError := by
  rfl

/-- Claim C9 (code divergence): on the width-8 tree (`result_width = 16`),
`get_column_num 16` does not fail with the range `ValueError` reporting the
offending index — the source's bound check `column > result_width` lets
`column = result_width` through and the list access raises `IndexError`. -/
theorem c9_get_column_num_boundary_index_error :
    (WallaceTree.init 8 20).map (fun t => t.get_column_num 16)
      = .ok (.error .indexError) := by
  rfl

/-- Claim C8: for every valid configuration the constructed tree has an empty
compressor registry, and `generate_tree` (whose body is `pass`) returns `None`
and leaves the engine state unchanged. -/
theorem c8_generate_tree_frame (width logic_depth : ℤ)
    (h4 : 4 ≤ width) (h3 : 3 ≤ logic_depth) :
    ∃ t, WallaceTree.init width logic_depth = .ok t ∧
      t.compressors = [] ∧ t.generate_tree = ((none : Option Unit), t) := by
  unfold WallaceTree.init
  rw [if_neg (by omega), if_neg (by omega)]
  exact ⟨_, rfl, rfl, rfl⟩

/-- Witness for claim C8 at `width = 4`, `logic_depth = 3`. -/
theorem c8_generate_tree_frame_witness :
    (4 : ℤ) ≤ 4 ∧ (3 : ℤ) ≤ 3 ∧
      ∃ t, WallaceTree.init 4 3 = .ok t ∧
        t.compressors = [] ∧ t.generate_tree = ((none : Option Unit), t) :=
  ⟨by decide, by decide, c8_generate_tree_frame 4 3 (by decide) (by decide)⟩

/-- Claim C10: construction fails with a `ValueError` exactly when `width < 4`
or `logic_depth < 3`; otherwise it succeeds with `result_width = 2 * width`
and `pp_num = width / 2 + 1`. -/
theorem c10_constructor_validation (width logic_depth : ℤ) :
    ((∃ e, WallaceTree.init width logic_depth = .error e) ↔
      width < 4 ∨ logic_depth < 3) ∧
    (4 ≤ width → 3 ≤ logic_depth →
      ∃ t, WallaceTree.init width logic_depth = .ok t ∧
        t.result_width = 2 * width.toNat ∧ t.pp_num = width.toNat / 2 + 1) := by
  constructor
  · by_cases h1 : width < 4
    · simp [WallaceTree.init, h1]
    · by_cases h2 : logic_depth < 3
      · simp [WallaceTree.init, h1, h2]
      · simp [WallaceTree.init, h1, h2]
  · intro h4 h3
    unfold WallaceTree.init
    rw [if_neg (by omega), if_neg (by omega)]
    exact ⟨_, rfl, rfl, rfl⟩

/-- Witness for claim C10 at `width = 8`, `logic_depth = 20`. -/
theorem c10_constructor_validation_witness :
    (4 : ℤ) ≤ 8 ∧ (3 : ℤ) ≤ 20 ∧
      ∃ t, WallaceTree.init 8 20 = .ok t ∧
        t.result_width = 2 * (8 : ℤ).toNat ∧ t.pp_num = (8 : ℤ).toNat / 2 + 1 :=
  ⟨by decide, by decide,
    (c10_constructor_validation 8 20).2 (by decide) (by decide)⟩

/-- Claim C4 (counterexample): the 4:2 compressor's `cout_b` output depends
only on inputs `a`, `b`, `c`, so with `a = b = c = cin = TIE_LOW` and an input
`d` of latency 10 its latency (2) is strictly below the latency of input `d` —
refuting "every output signal's latency is at least the maximum of the input
signals' latencies". -/
theorem c4_output_latency_not_above_all_inputs :
    (mkCompressor4to2 TIE_LOW TIE_LOW TIE_LOW
        { name := "d", latency := 10, host := none } TIE_LOW 0 0 0).cout_b.latency
      < ({ name := "d", latency := 10, host := none } : Signal).latency := by
  simp [mkCompressor4to2, TIE_LOW, AND_DELAY, OR_DELAY]
  norm_num

/-- Claim C4 (amended): for inputs with non-negative latencies, every output
of the 2:1 and 3:2 compressors and the `sum` / `cout_a` outputs of the 4:2
compressor exceed the maximum of all their input latencies by at least
`AND_DELAY = 1.0`; the 4:2 `cout_b` output exceeds the maximum of the `a`,
`b`, `c` input latencies by at least 1.0 (but not necessarily the latencies
of `d` or `cin`). -/
theorem c4_latency_monotonicity_amended (a b c d cin : Signal)
    (column level no : ℕ)
    (h : 0 ≤ a.latency ∧ 0 ≤ b.latency ∧ 0 ≤ c.latency ∧ 0 ≤ d.latency ∧
      0 ≤ cin.latency) :
    c4_mono_spec a b c d cin column level no := by
  obtain ⟨ha, hb, hc, hd, hcin⟩ := h
  simp only [c4_mono_spec, mkCompressor2to1, mkCompressor3to2, mkCompressor4to2,
    XOR_DELAY, AND_DELAY, OR_DELAY]
  norm_num
  have Ha : a.latency ≤ a.latency ⊔ b.latency ⊔ c.latency ⊔ d.latency :=
    le_sup_of_le_left (le_sup_of_le_left le_sup_left)
  have Hb : b.latency ≤ a.latency ⊔ b.latency ⊔ c.latency ⊔ d.latency :=
    le_sup_of_le_left (le_sup_of_le_left le_sup_right)
  have Hc : c.latency ≤ a.latency ⊔ b.latency ⊔ c.latency ⊔ d.latency :=
    le_sup_of_le_left le_sup_right
  have Hd : d.latency ≤ a.latency ⊔ b.latency ⊔ c.latency ⊔ d.latency :=
    le_sup_right
  rcases le_or_lt cin.latency (a.latency ⊔ b.latency ⊔ c.latency ⊔ d.latency + 3)
    with hlo | hhi
  · exact Or.inl hlo
  · exact Or.inr ⟨⟨⟨by linarith, by linarith⟩, by linarith⟩, by linarith⟩

/-- Witness for the amended claim C4 at five zero-latency inputs. -/
theorem c4_latency_monotonicity_witness :
    ((0 : ℚ) ≤ TIE_LOW.latency ∧ (0 : ℚ) ≤ TIE_LOW.latency ∧
      (0 : ℚ) ≤ TIE_LOW.latency ∧ (0 : ℚ) ≤ TIE_LOW.latency ∧
      (0 : ℚ) ≤ TIE_LOW.latency) ∧
      c4_mono_spec TIE_LOW TIE_LOW TIE_LOW TIE_LOW TIE_LOW 0 0 0 :=
  ⟨⟨le_refl 0, le_refl 0, le_refl 0, le_refl 0, le_refl 0⟩,
    c4_latency_monotonicity_amended TIE_LOW TIE_LOW TIE_LOW TIE_LOW TIE_LOW 0 0 0
      ⟨le_refl 0, le_refl 0, le_refl 0, le_refl 0, le_refl 0⟩⟩

/-- Claim C6: the exact delay formulas of the three compressor kinds (with
`AND = OR = 1.0`, `XOR = 1.5`), and the column reduction step on two signals
of latency `L` each yielding one sum of latency `L + 1.5` and one carry of
latency `L + 1.0`. -/
theorem c6_delay_formulas (a b c d cin : Signal) (column level no : ℕ)
    (L : ℚ) (s₁ s₂ : Signal) (h₁ : s₁.latency = L) (h₂ : s₂.latency = L) :
    c6_delay_spec a b c d cin column level no L s₁ s₂ := by
  simp only [c6_delay_spec, mkCompressor2to1, mkCompressor3to2, mkCompressor4to2,
    XOR_DELAY, AND_DELAY, OR_DELAY]
  norm_num
  refine ⟨[(mkCompressor2to1 s₁ s₂ column level no).cout],
    [(mkCompressor2to1 s₁ s₂ column level no).sum],
    ⟨[CompEntry.c2 (mkCompressor2to1 s₁ s₂ column level no)], rfl⟩, ?_, ?_⟩
  · simp [mkCompressor2to1, XOR_DELAY, AND_DELAY, h₁, h₂]
  · simp [mkCompressor2to1, XOR_DELAY, AND_DELAY, h₁, h₂]

/-- Witness for claim C6 at five zero-latency inputs and `L = 0`. -/
theorem c6_delay_formulas_witness :
    TIE_LOW.latency = 0 ∧
      c6_delay_spec TIE_LOW TIE_LOW TIE_LOW TIE_LOW TIE_LOW 3 1 0 0 TIE_LOW TIE_LOW :=
  ⟨rfl, c6_delay_formulas TIE_LOW TIE_LOW TIE_LOW TIE_LOW TIE_LOW 3 1 0 0
    TIE_LOW TIE_LOW rfl rfl⟩

/-- Helper: indexing a map over `List.range` with a default. -/
lemma getD_map_range {α : Type} (f : ℕ → α) (n r : ℕ) (d : α) (h : r < n) :
    ((List.range n).map f).getD r d = f r := by
  rw [List.getD_eq_getElem?_getD, List.getElem?_map, List.getElem?_range h]
  rfl

/-- Helper: row `r` of the Wallace map, explicitly. -/
lemma wallace_row (w r : ℕ) (hr : r < w / 2 + 1) :
    (get_wallace_map w).getD r []
      = (List.range (2 * w + 2)).map (fun j =>
          if j < start_pos r ∨ start_pos r + pp_width_core w (w / 2 + 1) r ≤ j
          then 0 else 1) := by
  unfold get_wallace_map
  exact getD_map_range _ _ _ _ hr

/-- Helper: closed form of an in-range layout entry. -/
lemma layout_entry_eq (w r c : ℕ) (hr : r < w / 2 + 1) (hc : c < 2 * w + 2) :
    layout_entry w r c
      = if c < start_pos r ∨ start_pos r + pp_width_core w (w / 2 + 1) r ≤ c
        then 0 else 1 := by
  unfold layout_entry
  rw [wallace_row w r hr]
  exact getD_map_range _ _ _ _ hc

/-- Helper: counting the 1-entries of a window row over `List.range n`. -/
lemma countP_window (s e n : ℕ) :
    (List.range n).countP
        (fun j => ((if j < s ∨ e ≤ j then (0 : ℕ) else 1) == 1))
      = min e n - min s n := by
  induction n with
  | zero => simp
  | succ k ih =>
    rw [List.range_succ, List.countP_append, ih]
    simp only [List.countP_cons, List.countP_nil]
    split_ifs with h1 h2 <;> simp_all <;> omega

/-- Helper: every row's populated window fits inside the matrix width. -/
lemma window_inside (w r : ℕ) (hw : 4 ≤ w) (hr : r < w / 2 + 1) :
    start_pos r + pp_width_core w (w / 2 + 1) r ≤ 2 * w + 2 := by
  unfold start_pos pp_width_core
  split_ifs <;> omega

/-- Helper: the count of 1-entries in a row equals the per-row width formula. -/
lemma row_ones_eq (w r : ℕ) (hw : 4 ≤ w) (hr : r < w / 2 + 1) :
    row_ones w r = pp_width_core w (w / 2 + 1) r := by
  unfold row_ones
  rw [wallace_row w r hr, List.count_eq_countP, List.countP_map]
  have h1 := countP_window (start_pos r)
    (start_pos r + pp_width_core w (w / 2 + 1) r) (2 * w + 2)
  have h2 := window_inside w r hw hr
  rw [show ((fun x => x == 1) ∘ fun j =>
      if j < start_pos r ∨ start_pos r + pp_width_core w (w / 2 + 1) r ≤ j
      then (0 : ℕ) else 1)
    = (fun j => ((if j < start_pos r ∨ start_pos r + pp_width_core w (w / 2 + 1) r ≤ j
      then (0 : ℕ) else 1) == 1)) from rfl]
  omega

/-- Helper: a list sum over `List.range` as a `Finset` sum. -/
lemma list_range_map_sum (f : ℕ → ℕ) (n : ℕ) :
    ((List.range n).map f).sum = ∑ i ∈ Finset.range n, f i := by
  induction n with
  | zero => simp
  | succ k ih =>
    rw [List.range_succ, List.map_append, List.sum_append, Finset.sum_range_succ, ih]
    simp

/-- Helper: `countP` over `List.range` as a `Finset` sum of indicators. -/
lemma list_range_countP_sum (p : ℕ → Bool) (n : ℕ) :
    (List.range n).countP p = ∑ i ∈ Finset.range n, if p i then 1 else 0 := by
  induction n with
  | zero => simp
  | succ k ih =>
    rw [List.range_succ, List.countP_append, Finset.sum_range_succ, ih]
    simp [List.countP_cons]

/-- Helper (double counting): the number of primary signals created across the
`result_width` columns equals the number of layout set bits in those columns. -/
lemma primary_total_eq (w : ℕ) : primary_total w = set_bits_upto w (2 * w) := by
  unfold primary_total set_bits_upto row_ones_upto gen_column
  simp only [List.length_map, ← List.countP_eq_length_filter]
  rw [list_range_map_sum, list_range_map_sum]
  rw [show (fun c => (List.range (w / 2 + 1)).countP
      (fun i => ((get_wallace_map w).getD i []).getD c 0 == 1))
    = (fun c => (List.range (w / 2 + 1)).countP
      (fun i => layout_entry w i c == 1)) from rfl]
  rw [Finset.sum_congr rfl (fun c _ => list_range_countP_sum _ _),
    Finset.sum_congr rfl (fun r _ => list_range_countP_sum _ _)]
  exact Finset.sum_comm

/-- Helper: the count restricted to all `result_width + 2` columns is again the
per-row width formula. -/
lemma row_ones_upto_full (w r : ℕ) (hw : 4 ≤ w) (hr : r < w / 2 + 1) :
    row_ones_upto w r (2 * w + 2) = pp_width_core w (w / 2 + 1) r := by
  unfold row_ones_upto
  rw [← List.countP_eq_length_filter]
  rw [List.countP_congr (q := fun j =>
    ((if j < start_pos r ∨ start_pos r + pp_width_core w (w / 2 + 1) r ≤ j
      then (0 : ℕ) else 1) == 1))]
  · have h1 := countP_window (start_pos r)
      (start_pos r + pp_width_core w (w / 2 + 1) r) (2 * w + 2)
    have h2 := window_inside w r hw hr
    omega
  · intro c hc
    rw [List.mem_range] at hc
    rw [layout_entry_eq w r c hr hc]

/-- Helper: the grand total of layout set bits, column-bounded form. -/
lemma total_set_bits_eq (w : ℕ) (hw : 4 ≤ w) :
    total_set_bits w = set_bits_upto w (2 * w + 2) := by
  unfold total_set_bits set_bits_upto
  rw [show get_wallace_map w = (List.range (w / 2 + 1)).map (fun i =>
      (List.range (2 * w + 2)).map (fun j =>
        if j < start_pos i ∨ start_pos i + pp_width_core w (w / 2 + 1) i ≤ j
        then 0 else 1)) from rfl]
  rw [List.map_map, list_range_map_sum, list_range_map_sum]
  refine Finset.sum_congr rfl (fun r hr => ?_)
  rw [Finset.mem_range] at hr
  have e1 : (Function.comp (fun row => List.count 1 row) (fun i =>
      (List.range (2 * w + 2)).map (fun j =>
        if j < start_pos i ∨ start_pos i + pp_width_core w (w / 2 + 1) i ≤ j
        then 0 else 1))) r = row_ones w r := by
    unfold row_ones
    rw [wallace_row w r hr]
    rfl
  rw [e1, row_ones_eq w r hw hr, row_ones_upto_full w r hw hr]

/-- Helper: the column lists of a successfully built tree are exactly the
`gen_column` lists, so their total length is `primary_total`. -/
lemma columns_sum_eq (w : ℕ) (hw : 4 ≤ w) (d : ℤ) (hd : 3 ≤ d) (t : WallaceTree)
    (ht : WallaceTree.init (w : ℤ) d = .ok t) :
    (t.columns.map List.length).sum = primary_total w := by
  unfold WallaceTree.init at ht
  rw [if_neg (by omega), if_neg (by omega)] at ht
  simp only [Except.ok.injEq] at ht
  subst ht
  simp only [Int.toNat_natCast, List.map_map]
  rfl

/-- Helper: `get_pp_width` at row 0. -/
lemma gpw_zero (w : ℕ) (hw : 4 ≤ w) :
    get_pp_width w (w / 2 + 1) 0 = .ok (w + 4) := by
  unfold get_pp_width pp_width_core
  rw [if_neg (by omega)]
  norm_num

/-- Helper: `get_pp_width` at the last row. -/
lemma gpw_last (w : ℕ) (hw : 4 ≤ w) :
    get_pp_width w (w / 2 + 1) ((w / 2 + 1 : ℕ) - 1 : ℕ) = .ok (w + 3) := by
  unfold get_pp_width pp_width_core
  rw [if_neg (by omega)]
  rw [Int.toNat_natCast]
  rw [if_neg (by omega), if_pos (by omega)]

/-- Helper: `get_pp_width` at a middle row. -/
lemma gpw_mid (w : ℕ) (_hw : 4 ≤ w) (r : ℕ) (h0 : 0 < r) (h1 : r < w / 2) :
    get_pp_width w (w / 2 + 1) r = .ok (w + 5) := by
  unfold get_pp_width pp_width_core
  rw [if_neg (by omega)]
  rw [Int.toNat_natCast]
  rw [if_neg (by omega), if_neg (by omega)]

/-- Claim C5: for every `width ≥ 4` the partial-product layout is a
`pp_num x (result_width + 2)` matrix with `pp_num = width / 2 + 1`, the
populated widths are `w + 4` (row 0), `w + 3` (last row), `w + 5` (middle
rows), the row start column is 0 for rows 0 and 1 and `2*row - 2` otherwise,
entry `(row, col)` is 1 iff `col` lies in `[start, start + pp_width)`, and for
`width = 8` this gives `pp_num = 5`, `result_width = 16` and row widths
`12, 13, 13, 13, 11`. -/
theorem c5_layout_formula (w : ℕ) (hw : 4 ≤ w) : c5_layout_spec w := by
  refine ⟨?_, ?_, gpw_zero w hw, gpw_last w hw, gpw_mid w hw, rfl, rfl, ?_, ?_, ?_⟩
  · simp [get_wallace_map]
  · intro r hr
    rw [wallace_row w r hr]
    simp
  · intro r hr
    unfold start_pos
    rw [if_neg (by omega)]
    omega
  · intro r c hr hc
    rw [layout_entry_eq w r c hr hc]
    generalize pp_width_core w (w / 2 + 1) r = pw
    generalize start_pos r = s
    split_ifs with h
    · exact iff_of_false not_false (by omega)
    · exact iff_of_true rfl (by omega)
  · intro h8
    subst h8
    refine ⟨rfl, rfl, by decide⟩

/-- Witness for claim C5 at `width = 8`. -/
theorem c5_layout_formula_witness : 4 ≤ 8 ∧ c5_layout_spec 8 :=
  ⟨by decide, c5_layout_formula 8 (by decide)⟩

/-- Claim C7 (counterexample): at `width = 8` the layout holds 62 set bits but
only 60 primary signals are created (the 2 set bits of layout columns 16 = 
`result_width` and beyond are never instantiated, since columns are generated
only for indices below `result_width`), refuting "the total number of set bits
across the whole layout matrix equals the total number of primary signals". -/
theorem c7_set_bits_mismatch :
    total_set_bits 8 = 62 ∧ primary_total 8 = 60 ∧
      (WallaceTree.init 8 20).map (fun t => (t.columns.map List.length).sum)
        = .ok 60 ∧
      total_set_bits 8 ≠ primary_total 8 :=
  ⟨by rfl, by rfl, by rfl, by decide⟩

/-- Claim C7 (amended): every layout row's count of 1-entries equals the
per-row width formula, and the total number of primary signals created across
all columns equals the number of set bits in layout columns
`0 .. result_width - 1` (the whole-matrix total also counts bits in the two
extra columns, which are never instantiated); each primary signal has latency
`BOOTH_DELAY = 4.0` and no producer. -/
theorem c7_row_sums_and_primary_amended (w : ℕ) (hw : 4 ≤ w) :
    c7_amended_spec w := by
  refine ⟨fun r hr => row_ones_eq w r hw hr, primary_total_eq w,
    total_set_bits_eq w hw, fun d hd t ht => columns_sum_eq w hw d hd t ht, ?_⟩
  intro c s hs
  unfold gen_column at hs
  simp only [List.mem_map] at hs
  obtain ⟨i, _, rfl⟩ := hs
  exact ⟨rfl, rfl⟩

/-- Witness for the amended claim C7 at `width = 8`. -/
theorem c7_row_sums_and_primary_witness : 4 ≤ 8 ∧ c7_amended_spec 8 :=
  ⟨by decide, c7_row_sums_and_primary_amended 8 (by decide)⟩
